import Mathlib

/-!
Shallow embedding of the query-execution core of the X-qdrant repository:
* `lib/common/common/src/types.rs` — scored points, dimension contributions,
  score explanations;
* `lib/segment/src/spaces/explainability.rs` — per-dimension score
  decomposition for the four distance metrics;
* `src/common/query.rs` — the query orchestrator (core search with optional
  explanation augmentation, batched search via the request coalescer,
  query-API single call).

Machine floats (`f32`) are modelled by exact rationals `ℚ`: all the
arithmetic the verified claims read is sign/zero/length/ordering structure,
which `ℚ` shares with exact real arithmetic.  The backing store
(`toc.core_search_batch`, `toc.query_batch`) is not part of the repository
slice, so orchestrator functions are parametrised by the backing call.
-/

/-- Rust `ScoreType = f32`, modelled exactly. -/
abbrev ScoreType : Type := ℚ

/-- Rust `DenseVector = Vec<VectorElementType>` with `VectorElementType = f32`. -/
abbrev DenseVector : Type := List ScoreType

/-- Rust `ScoredPointOffset { idx: u32, score: f32 }` (types.rs). -/
structure ScoredPointOffset where
  idx : ℕ
  score : ScoreType
deriving DecidableEq

/-- Rust `impl Ord for ScoredPointOffset`: compares `OrderedFloat(self.score)`
with `OrderedFloat(other.score)` — a total order on the score field alone.
`OrderedFloat`'s `cmp` on non-NaN values is the usual numeric total order,
modelled by three-way comparison on `ℚ`. -/
def ScoredPointOffset.cmp (a b : ScoredPointOffset) : Ordering :=
  if a.score < b.score then Ordering.lt
  else if b.score < a.score then Ordering.gt
  else Ordering.eq

/-- Rust `DimensionContribution { dimension: usize, contribution: ScoreType }`. -/
structure DimensionContribution where
  dimension : ℕ
  contribution : ScoreType
deriving DecidableEq

/-- Rust `ScoreExplanation { top_dimensions: Vec<DimensionContribution> }`. -/
structure ScoreExplanation where
  top_dimensions : List DimensionContribution
deriving DecidableEq

/-- Rust `ScoreExplanation::new`: stable-sorts (Rust `sort_by` is stable, as is
`List.mergeSort`) the contributions by descending absolute value — the
comparator is `OrderedFloat(b.contribution.abs()).cmp(&OrderedFloat(a.contribution.abs()))`
— then truncates to the first `top_n`. -/
def ScoreExplanation.new (contributions : List DimensionContribution) (top_n : ℕ) :
    ScoreExplanation :=
  { top_dimensions :=
      (contributions.mergeSort
        (fun a b => decide (|b.contribution| ≤ |a.contribution|))).take top_n }

/-- Rust `enum Distance { Cosine, Euclid, Dot, Manhattan }` (segment types,
external to the slice but a closed enumeration fixed by the dispatch in
explainability.rs). -/
inductive Distance where
  | Cosine
  | Euclid
  | Dot
  | Manhattan
deriving DecidableEq

/-- Rust `dot_product_contributions` (explainability.rs): zips the two vectors,
contribution at dimension `i` is `v1[i] * v2[i]`. -/
def dot_product_contributions (v1 v2 : DenseVector) : List DimensionContribution :=
  ((v1.zip v2).enum).map
    (fun p => { dimension := p.1, contribution := p.2.1 * p.2.2 })

/-- Rust `euclidean_contributions`: contribution at dimension `i` is
`-((v1[i] - v2[i]) * (v1[i] - v2[i]))`. -/
def euclidean_contributions (v1 v2 : DenseVector) : List DimensionContribution :=
  ((v1.zip v2).enum).map
    (fun p => { dimension := p.1, contribution := -((p.2.1 - p.2.2) * (p.2.1 - p.2.2)) })

/-- Sum of squares of a vector, i.e. the square of its Euclidean norm.
The source computes `norm = v.iter().map(|x| x * x).sum().sqrt()`; the model
keeps the radicand, which is zero exactly when the norm is. -/
def normSq (v : DenseVector) : ScoreType :=
  (v.map (fun x => x * x)).sum

/-- Rust `cosine_contributions`: computes `norm1 = sqrt(Σ v1ᵢ²)`,
`norm2 = sqrt(Σ v2ᵢ²)`, `denominator = norm1 * norm2`; if the denominator is
zero every contribution is `0.0` (one entry per element of `v1`, via
`v1.iter().enumerate()`, not via the zip); otherwise contribution `i` is
`(v1[i] * v2[i]) / denominator` over the zip.  Square roots do not exist in
`ℚ`, so the model's guard is `normSq v1 * normSq v2 = 0`, which (for exact
non-negative arithmetic) holds exactly when the source's
`sqrt(Σ v1ᵢ²) * sqrt(Σ v2ᵢ²) == 0.0` does, and the nonzero-branch divisor is
the positive rational `normSq v1 * normSq v2` standing in for the positive
real `norm1 * norm2`; no verified claim depends on the magnitude of a
nonzero cosine contribution, only on its dimension index and on the list
shape, which agree with the source exactly. -/
def cosine_contributions (v1 v2 : DenseVector) : List DimensionContribution :=
  let denominator := normSq v1 * normSq v2
  if denominator = 0 then
    (v1.enum).map (fun p => { dimension := p.1, contribution := 0 })
  else
    ((v1.zip v2).enum).map
      (fun p => { dimension := p.1, contribution := (p.2.1 * p.2.2) / denominator })

/-- Rust `manhattan_contributions`: contribution at dimension `i` is
`-(v1[i] - v2[i]).abs()`. -/
def manhattan_contributions (v1 v2 : DenseVector) : List DimensionContribution :=
  ((v1.zip v2).enum).map
    (fun p => { dimension := p.1, contribution := -|p.2.1 - p.2.2| })

/-- Rust `compute_contributions`: exhaustive dispatch on the metric. -/
def compute_contributions (distance : Distance) (v1 v2 : DenseVector) :
    List DimensionContribution :=
  match distance with
  | Distance.Dot => dot_product_contributions v1 v2
  | Distance.Cosine => cosine_contributions v1 v2
  | Distance.Euclid => euclidean_contributions v1 v2
  | Distance.Manhattan => manhattan_contributions v1 v2

/-- Rust `DEFAULT_TOP_DIMENSIONS` (explainability.rs). -/
def DEFAULT_TOP_DIMENSIONS : ℕ := 10

/-- Rust `compute_explanation`: decompose, then build the top-N explanation
(`top_n.unwrap_or(DEFAULT_TOP_DIMENSIONS)`). -/
def compute_explanation (distance : Distance) (v1 v2 : DenseVector)
    (top_n : Option ℕ) : ScoreExplanation :=
  ScoreExplanation.new (compute_contributions distance v1 v2)
    (top_n.getD DEFAULT_TOP_DIMENSIONS)

/-- Rust `VectorInternal` (segment data types): dense, sparse or multi-dense
vector.  Sparse and multi-dense payloads are carried opaquely; the
orchestrator only discriminates on the variant. -/
inductive VectorInternal where
  | Dense (v : DenseVector)
  | Sparse (pairs : List (ℕ × ScoreType))
  | MultiDense (vs : List DenseVector)
deriving DecidableEq

/-- Rust `NamedQuery` payload of `QueryEnum::Nearest`: carries the query
vector (the vector-name field is irrelevant to the slice and omitted). -/
structure NamedQuery where
  query : VectorInternal
deriving DecidableEq

/-- Rust `QueryEnum` (shard query): the orchestrator matches `Nearest` and
treats every other variant with a catch-all `_` arm, modelled by a single
`OtherQuery` constructor. -/
inductive QueryEnum where
  | Nearest (named_query : NamedQuery)
  | OtherQuery
deriving DecidableEq

/-- Rust `VectorStructInternal`: a stored vector payload — single dense,
multi-dense, or a map of named vectors (the `HashMap` is modelled as an
association list; the orchestrator only scans its values in order). -/
inductive VectorStructInternal where
  | Single (v : DenseVector)
  | MultiDense (vs : List DenseVector)
  | Named (named_map : List (String × VectorInternal))
deriving DecidableEq

/-- Rust `WithVector`: either a boolean or a selector of named vectors. -/
inductive WithVector where
  | Bool (b : Bool)
  | Selector (names : List String)
deriving DecidableEq

/-- Rust `CoreSearchRequest`, restricted to the fields the orchestrator
reads or writes (`query`, `with_vector`, `with_explanation`); `limit` stands
for the remaining payload fields, which are forwarded untouched. -/
structure CoreSearchRequest where
  query : QueryEnum
  with_vector : Option WithVector
  with_explanation : Bool
  limit : ℕ
deriving DecidableEq

/-- Rust `CoreSearchRequestBatch { searches: Vec<CoreSearchRequest> }`. -/
structure CoreSearchRequestBatch where
  searches : List CoreSearchRequest
deriving DecidableEq

/-- Rust `StorageError`, restricted to the variants distinguishable in the
slice; `ServiceError` is the internal-service error. -/
inductive StorageError where
  | ServiceError (description : String)
  | BadInput (description : String)
  | NotFound (description : String)
deriving DecidableEq

/-- Rust `StorageError::service_error(description)`. -/
def StorageError.service_error (description : String) : StorageError :=
  StorageError.ServiceError description

/-- Rust `ScoredPoint` (segment types), restricted to the fields the
orchestrator touches: the stored vector payload and the attached
explanation; `id`, `version`, `score` are carried through untouched. -/
structure ScoredPoint where
  id : ℕ
  version : ℕ
  score : ScoreType
  vector : Option VectorStructInternal
  score_explanation : Option ScoreExplanation
deriving DecidableEq

/-- Rust `extract_query_vector` (query.rs): only a `Nearest` query with a
dense vector yields a query vector; sparse, multi-dense and non-nearest
queries yield `None`. -/
def extract_query_vector (query : QueryEnum) : Option DenseVector :=
  match query with
  | QueryEnum.Nearest named_query =>
    match named_query.query with
    | VectorInternal.Dense dense => some dense
    | VectorInternal.Sparse _ => none
    | VectorInternal.MultiDense _ => none
  | QueryEnum.OtherQuery => none

/-- Rust `extract_dense_vector_from_struct` (query.rs): a single vector is
already dense; multi-dense is unsupported; for named vectors, the first
dense value found is returned. -/
def extract_dense_vector_from_struct (vector_struct : VectorStructInternal) :
    Option DenseVector :=
  match vector_struct with
  | VectorStructInternal.Single dense => some dense
  | VectorStructInternal.MultiDense _ => none
  | VectorStructInternal.Named named_map =>
    (named_map.map Prod.snd).findSome?
      (fun v => match v with
        | VectorInternal.Dense dense => some dense
        | _ => none)

/-- Rust `get_collection_distance` (query.rs): ignores all four arguments and
returns `None` unconditionally ("For now, return None and let the caller use
a default").  The argument types (`TableOfContent`, collection name,
`Access`, `ShardSelectorInternal`) are external to the slice and irrelevant
to the body, so they are abstract here. -/
def get_collection_distance {Toc Name Acc Sel : Type}
    (toc : Toc) (collection_name : Name) (access : Acc) (shard_selection : Sel) :
    Option Distance :=
  let _ := (toc, collection_name, access, shard_selection)
  none

/-- Rust `compute_explanation_for_distance` (query.rs): delegates to
`compute_explanation` with `Some(top_n)`. -/
def compute_explanation_for_distance (query result : DenseVector)
    (distance : Distance) (top_n : ℕ) : ScoreExplanation :=
  compute_explanation distance query result (some top_n)

/-- Body of the `for point in &mut results` loop of `do_core_search_points`
(query.rs), hoisted to a named function: when the point carries a vector
from which a dense vector is retrievable, attach the computed top-10
explanation; otherwise leave the point unchanged. -/
def attachExplanation (query_vec : DenseVector) (distance : Distance)
    (point : ScoredPoint) : ScoredPoint :=
  match point.vector with
  | some vector_struct =>
    match extract_dense_vector_from_struct vector_struct with
    | some result_vec =>
      { point with
          score_explanation :=
            some (compute_explanation_for_distance query_vec result_vec distance 10) }
    | none => point
  | none => point

/-- Rust `do_core_search_batch_points` (query.rs): a direct delegation to
`toc.core_search_batch`; the backing call is the parameter. -/
def do_core_search_batch_points
    (core_search_batch : CoreSearchRequestBatch → Except StorageError (List (List ScoredPoint)))
    (request : CoreSearchRequestBatch) :
    Except StorageError (List (List ScoredPoint)) :=
  core_search_batch request

/-- Rust `do_core_search_points` (query.rs), parametrised by the backing
batch call (`toc.core_search_batch`, external to the slice).  Faithful to
the source: records `with_explanation` and the original `with_vector`;
forces `with_vector = Some(Bool(true))` when an explanation is requested;
extracts the dense query vector (only then); issues a singleton batch;
takes the first result list or fails with the `"Empty search result"`
service error; when an explanation was requested and a query vector exists,
resolves the metric via `get_collection_distance(...).unwrap_or(Cosine)` and
attaches a top-10 explanation to every point with a retrievable dense
vector; finally, still under `with_explanation`, strips vectors back out
when the original request had `with_vector` `None` or `Some(Bool(false))`. -/
def do_core_search_points
    (core_search_batch : CoreSearchRequestBatch → Except StorageError (List (List ScoredPoint)))
    (request : CoreSearchRequest) :
    Except StorageError (List ScoredPoint) :=
  let with_explanation := request.with_explanation
  let original_with_vector := request.with_vector
  let request :=
    if with_explanation then
      { request with with_vector := some (WithVector.Bool true) }
    else request
  let query_vector : Option DenseVector :=
    if with_explanation then extract_query_vector request.query else none
  match do_core_search_batch_points core_search_batch { searches := [request] } with
  | Except.error e => Except.error e
  | Except.ok batch_res =>
    match batch_res.head? with
    | none => Except.error (StorageError.service_error "Empty search result")
    | some results =>
      let results :=
        if with_explanation then
          let results :=
            match query_vector with
            | some query_vec =>
              let distance :=
                (get_collection_distance () () () ()).getD Distance.Cosine
              results.map (attachExplanation query_vec distance)
            | none => results
          if original_with_vector = none ∨
              original_with_vector = some (WithVector.Bool false) then
            results.map (fun point => { point with vector := none })
          else results
        else results
      Except.ok results

/-- Rust `do_query_points` (query.rs), parametrised by the backing
`toc.query_batch` call; the query-request and shard-selector types are
external to the slice and abstract here.  Issues a singleton batch and takes
the first result list, failing with the `"Empty query result"` service error
when the batch result is empty. -/
def do_query_points {Q S : Type}
    (query_batch : List (Q × S) → Except StorageError (List (List ScoredPoint)))
    (request : Q) (shard_selection : S) :
    Except StorageError (List ScoredPoint) :=
  match query_batch [(request, shard_selection)] with
  | Except.error e => Except.error e
  | Except.ok batch_res =>
    match batch_res.head? with
    | none => Except.error (StorageError.service_error "Empty query result")
    | some r => Except.ok r

/-- Modelled from the spec: the distinct partition keys of an input list in
first-seen order (the Coalescer of `collection::common::batching`, whose
source is not part of the slice, "groups a heterogeneous collection of
(request, partition-key) pairs by partition key" with "equal keys …
coalesced into a single bucket", the finalizer "invoked once per distinct
partition key (in first-seen order)"). -/
def firstSeenKeys {Key : Type} [DecidableEq Key] : List Key → List Key
  | [] => []
  | k :: ks => k :: (firstSeenKeys ks).filter (fun k2 => decide (¬ k2 = k))

/-- Modelled from the spec: `batch_requests` of
`collection::common::batching` (source not in the slice).  Groups the
`(request, key)` pairs by key — value equality, one bucket per distinct key
in first-seen order, each bucket preserving the relative order requests were
accumulated in — and invokes the finalizer once per distinct key with the
accumulated bucket; a finalizer returning `none` (the empty-bucket no-op of
the spec) emits nothing. -/
def batch_requests {Req Key Fut : Type} [DecidableEq Key]
    (requests : List (Req × Key))
    (submit : Key → List Req → Option Fut) : List Fut :=
  (firstSeenKeys (requests.map Prod.snd)).filterMap
    (fun k => submit k ((requests.filter (fun p => decide (p.2 = k))).map Prod.fst))

/-- Rust `do_search_batch_points` (query.rs): batches the
`(request, shard_selector)` pairs via the Coalescer — the finalizer skips
empty buckets (`if core_requests.is_empty() { return Ok(()) }`) and
otherwise issues one backing `core_search_batch` call per partition — then
awaits all partition calls and flattens their result lists in partition
order (`results.into_iter().flatten().collect()`).  The backing call is the
parameter: `core_search_batch k reqs` is the list of per-request result
lists for bucket `reqs` against shard selector `k`. -/
def do_search_batch_points {Req Key Res : Type} [DecidableEq Key]
    (core_search_batch : Key → List Req → List Res)
    (requests : List (Req × Key)) : List Res :=
  (batch_requests requests
    (fun shard_selector core_requests =>
      if core_requests.isEmpty then none
      else some (core_search_batch shard_selector core_requests))).flatten

/-- Reference value: the dot product of two vectors, paired positionally
(the spec's "dot-product score"). -/
def dotProduct (v1 v2 : DenseVector) : ScoreType :=
  ((v1.zip v2).map (fun p => p.1 * p.2)).sum

/-- Reference value: the squared Euclidean distance between two vectors. -/
def squaredEuclideanDistance (v1 v2 : DenseVector) : ScoreType :=
  ((v1.zip v2).map (fun p => (p.1 - p.2) * (p.1 - p.2))).sum

/-- Reference value: the Manhattan (L1) distance between two vectors. -/
def manhattanDistance (v1 v2 : DenseVector) : ScoreType :=
  ((v1.zip v2).map (fun p => |p.1 - p.2|)).sum

/-- Sum of the contribution values of a contribution list. -/
def contributionSum (cs : List DimensionContribution) : ScoreType :=
  (cs.map (fun c => c.contribution)).sum

/-- Flattening of a grouped request list: one run of requests per group, each
tagged with its group's partition key.  An input of this shape is exactly an
input whose equal keys appear only in adjacent positions. -/
def ungroup {Req Key : Type} (groups : List (Key × List Req)) : List (Req × Key) :=
  (groups.map (fun g => g.2.map (fun r => (r, g.1)))).flatten

/-- Helper: a sum over an enumerated list that ignores the indices is the sum
over the underlying list. -/
theorem sum_map_enum_snd {α : Type} (l : List α) (f : α → ScoreType) :
    ((l.enum).map (fun p => f p.2)).sum = (l.map f).sum := by
  conv_rhs => rw [← List.enum_map_snd l]
  rw [List.map_map]
  rfl

/-- Helper: negating every summand negates the sum. -/
theorem sum_map_neg {α : Type} (l : List α) (f : α → ScoreType) :
    (l.map (fun x => -(f x))).sum = -((l.map f).sum) := by
  induction l with
  | nil => simp
  | cons a t ih => simp [ih]; ring

/-- C9: `ScoredPointOffset`'s total ordering is defined by the score alone —
`cmp` is unchanged under replacing either argument by any point with the
same score (in particular it never reads `idx`), and two points with equal
score compare equal. -/
theorem scoredPointOffset_cmp_score_only (a b a2 b2 : ScoredPointOffset)
    (ha : a.score = a2.score) (hb : b.score = b2.score) :
    ScoredPointOffset.cmp a b = ScoredPointOffset.cmp a2 b2 ∧
    (a.score = b.score → ScoredPointOffset.cmp a b = Ordering.eq) := by
  constructor
  · simp only [ScoredPointOffset.cmp, ha, hb]
  · intro h
    simp [ScoredPointOffset.cmp, h]

/-- Witness for C9 at concrete points with equal scores and distinct offsets. -/
theorem scoredPointOffset_cmp_score_only_witness :
    ScoredPointOffset.cmp ⟨0, 1⟩ ⟨5, 1⟩ = ScoredPointOffset.cmp ⟨3, 1⟩ ⟨7, 1⟩ ∧
    ((⟨0, 1⟩ : ScoredPointOffset).score = (⟨5, 1⟩ : ScoredPointOffset).score →
      ScoredPointOffset.cmp ⟨0, 1⟩ ⟨5, 1⟩ = Ordering.eq) :=
  scoredPointOffset_cmp_score_only ⟨0, 1⟩ ⟨5, 1⟩ ⟨3, 1⟩ ⟨7, 1⟩ rfl rfl

/-- C8: when the backing batch call succeeds with an empty list of result
lists, the single-query paths fail with the internal-service errors
`"Empty search result"` (core search) and `"Empty query result"` (query). -/
theorem empty_batch_result_is_service_error {Q S : Type}
    (core_search_batch :
      CoreSearchRequestBatch → Except StorageError (List (List ScoredPoint)))
    (request : CoreSearchRequest)
    (query_batch : List (Q × S) → Except StorageError (List (List ScoredPoint)))
    (qrequest : Q) (shard_selection : S)
    (hcs : ∀ b, core_search_batch b = Except.ok [])
    (hqb : query_batch [(qrequest, shard_selection)] = Except.ok []) :
    do_core_search_points core_search_batch request =
      Except.error (StorageError.service_error "Empty search result") ∧
    do_query_points query_batch qrequest shard_selection =
      Except.error (StorageError.service_error "Empty query result") := by
  constructor
  · simp [do_core_search_points, do_core_search_batch_points, hcs]
  · simp [do_query_points, hqb]

/-- Witness for C8 at a concrete request against a backing store returning an
empty batch result. -/
theorem empty_batch_result_is_service_error_witness :
    do_core_search_points (fun _ => Except.ok [])
        ⟨QueryEnum.OtherQuery, none, false, 7⟩ =
      Except.error (StorageError.service_error "Empty search result") ∧
    do_query_points (fun (_ : List (ℕ × ℕ)) => Except.ok []) 4 2 =
      Except.error (StorageError.service_error "Empty query result") :=
  empty_batch_result_is_service_error (fun _ => Except.ok [])
    ⟨QueryEnum.OtherQuery, none, false, 7⟩
    (fun _ => Except.ok []) 4 2 (fun _ => rfl) rfl

/-- C10: with `with_explanation = false`, `do_core_search_points` is a pure
pass-through — the original request is forwarded unchanged (in particular
`with_vector` is untouched) in a singleton batch, and the result is exactly
the first element of the backing batch result: no explanation is attached
and no vector is stripped. -/
theorem core_search_passthrough_without_explanation
    (core_search_batch :
      CoreSearchRequestBatch → Except StorageError (List (List ScoredPoint)))
    (request : CoreSearchRequest) (r : List ScoredPoint)
    (rest : List (List ScoredPoint))
    (hexp : request.with_explanation = false)
    (hcs : core_search_batch { searches := [request] } = Except.ok (r :: rest)) :
    do_core_search_points core_search_batch request = Except.ok r := by
  simp [do_core_search_points, do_core_search_batch_points, hexp, hcs]

/-- Witness for C10: a concrete request without explanation is answered by
the first backing result list, unmodified. -/
theorem core_search_passthrough_without_explanation_witness :
    do_core_search_points
        (fun _ => Except.ok
          [[⟨3, 0, 5, some (VectorStructInternal.Single [1, 2]), none⟩], []])
        ⟨QueryEnum.Nearest ⟨VectorInternal.Dense [1]⟩,
          some (WithVector.Bool true), false, 9⟩ =
      Except.ok [⟨3, 0, 5, some (VectorStructInternal.Single [1, 2]), none⟩] :=
  core_search_passthrough_without_explanation _ _ _ _ rfl rfl

/-- C4: reading the arithmetic exactly, for equal-length vectors the dot
contributions sum to the dot product, the Euclidean contributions sum to the
negative squared Euclidean distance, and the Manhattan contributions sum to
the negative L1 distance. -/
theorem contribution_sums (v1 v2 : DenseVector) (h : v1.length = v2.length) :
    contributionSum (dot_product_contributions v1 v2) = dotProduct v1 v2 ∧
    contributionSum (euclidean_contributions v1 v2) =
      -(squaredEuclideanDistance v1 v2) ∧
    contributionSum (manhattan_contributions v1 v2) =
      -(manhattanDistance v1 v2) := by
  refine ⟨?_, ?_, ?_⟩
  · rw [contributionSum, dot_product_contributions, List.map_map]
    exact sum_map_enum_snd (v1.zip v2) (fun q => q.1 * q.2)
  · rw [contributionSum, euclidean_contributions, List.map_map]
    have := sum_map_enum_snd (v1.zip v2) (fun q => -((q.1 - q.2) * (q.1 - q.2)))
    rw [show ((fun c => c.contribution) ∘
        (fun p : ℕ × (ScoreType × ScoreType) =>
          ({ dimension := p.1,
             contribution := -((p.2.1 - p.2.2) * (p.2.1 - p.2.2)) } :
            DimensionContribution))) =
        (fun p : ℕ × (ScoreType × ScoreType) =>
          -((p.2.1 - p.2.2) * (p.2.1 - p.2.2))) from rfl, this]
    rw [squaredEuclideanDistance, ← sum_map_neg]
  · rw [contributionSum, manhattan_contributions, List.map_map]
    have := sum_map_enum_snd (v1.zip v2) (fun q => -|q.1 - q.2|)
    rw [show ((fun c => c.contribution) ∘
        (fun p : ℕ × (ScoreType × ScoreType) =>
          ({ dimension := p.1, contribution := -|p.2.1 - p.2.2| } :
            DimensionContribution))) =
        (fun p : ℕ × (ScoreType × ScoreType) => -|p.2.1 - p.2.2|) from rfl, this]
    rw [manhattanDistance, ← sum_map_neg]

/-- Witness for C4 at the vectors `[1, 2]` and `[3, 4]`. -/
theorem contribution_sums_witness :
    ([1, 2] : DenseVector).length = ([3, 4] : DenseVector).length ∧
    (contributionSum (dot_product_contributions [1, 2] [3, 4]) =
        dotProduct [1, 2] [3, 4] ∧
      contributionSum (euclidean_contributions [1, 2] [3, 4]) =
        -(squaredEuclideanDistance [1, 2] [3, 4]) ∧
      contributionSum (manhattan_contributions [1, 2] [3, 4]) =
        -(manhattanDistance [1, 2] [3, 4])) :=
  ⟨rfl, contribution_sums [1, 2] [3, 4] rfl⟩

/-- C7: when either vector has zero norm, `cosine_contributions` takes the
guarded branch — it returns one contribution of exactly `0` per element of
`v1` and never performs the division. -/
theorem cosine_contributions_zero_norm (v1 v2 : DenseVector)
    (h : normSq v1 = 0 ∨ normSq v2 = 0) :
    cosine_contributions v1 v2 =
      (v1.enum).map (fun p => { dimension := p.1, contribution := 0 }) ∧
    ∀ c ∈ cosine_contributions v1 v2, c.contribution = 0 := by
  have hd : normSq v1 * normSq v2 = 0 := by
    rcases h with h | h <;> simp [h]
  constructor
  · simp [cosine_contributions, hd]
  · intro c hc
    rw [cosine_contributions] at hc
    simp only [hd, if_true, List.mem_map, reduceIte] at hc
    obtain ⟨p, _, hp⟩ := hc
    rw [← hp]

/-- Witness for C7 at `v1 = [0, 0]` (zero norm) against `v2 = [1, 2]`. -/
theorem cosine_contributions_zero_norm_witness :
    (normSq [0, 0] = 0 ∨ normSq [1, 2] = 0) ∧
    (cosine_contributions [0, 0] [1, 2] =
        (([0, 0] : DenseVector).enum).map
          (fun p => { dimension := p.1, contribution := 0 }) ∧
      ∀ c ∈ cosine_contributions [0, 0] [1, 2], c.contribution = 0) :=
  ⟨Or.inl (by simp [normSq]),
    cosine_contributions_zero_norm [0, 0] [1, 2] (Or.inl (by simp [normSq]))⟩

/-- Counterexample for C5: with the Cosine metric, a zero-norm `v1 = [0, 0]`
against `v2 = [1]` yields 2 contributions (one per element of `v1`), not
`min 2 1 = 1` — the zero-norm branch enumerates `v1`, not the zip. -/
theorem compute_contributions_length_counterexample :
    ¬ ((compute_contributions Distance.Cosine [0, 0] [1]).length =
        min (([0, 0] : DenseVector).length) (([1] : DenseVector).length)) := by
  simp [compute_contributions, cosine_contributions, normSq]

/-- C5 amended: decomposition never signals an error (it is total) and pairs
positionally: for Dot, Euclid and Manhattan the output length is the shorter
input length; for Cosine this holds when both norms are nonzero, while the
guarded zero-norm branch returns one entry per element of `v1`. -/
theorem compute_contributions_length (distance : Distance) (v1 v2 : DenseVector) :
    (compute_contributions distance v1 v2).length =
      match distance with
      | Distance.Cosine =>
        if normSq v1 * normSq v2 = 0 then v1.length else min v1.length v2.length
      | Distance.Dot => min v1.length v2.length
      | Distance.Euclid => min v1.length v2.length
      | Distance.Manhattan => min v1.length v2.length := by
  cases distance with
  | Cosine =>
    rw [compute_contributions, cosine_contributions]
    by_cases hg : normSq v1 * normSq v2 = 0 <;> simp [hg]
  | Dot => simp [compute_contributions, dot_product_contributions]
  | Euclid => simp [compute_contributions, euclidean_contributions]
  | Manhattan => simp [compute_contributions, manhattan_contributions]

/-- Helper: the comparator of `ScoreExplanation::new` is stable on a tie
class — filtering the sorted list to the contributions of one absolute
value gives back the input's entries of that absolute value, in input
order. -/
theorem mergeSort_filter_tie (l : List DimensionContribution) (q : ScoreType) :
    ((l.mergeSort (fun a b => decide (|b.contribution| ≤ |a.contribution|))).filter
        (fun c => decide (|c.contribution| = q))) =
      l.filter (fun c => decide (|c.contribution| = q)) := by
  have trans : ∀ a b c : DimensionContribution,
      decide (|b.contribution| ≤ |a.contribution|) →
      decide (|c.contribution| ≤ |b.contribution|) →
      decide (|c.contribution| ≤ |a.contribution|) := by
    intro a b c hab hbc
    simp only [decide_eq_true_eq] at *
    exact le_trans hbc hab
  have total : ∀ a b : DimensionContribution,
      decide (|b.contribution| ≤ |a.contribution|) ||
      decide (|a.contribution| ≤ |b.contribution|) := by
    intro a b
    rcases le_total (|b.contribution|) (|a.contribution|) with h | h <;> simp [h]
  have hpw : (l.filter (fun c => decide (|c.contribution| = q))).Pairwise
      (fun a b => decide (|b.contribution| ≤ |a.contribution|) = true) := by
    apply List.pairwise_of_forall_mem_list
    intro a ha b hb
    simp only [List.mem_filter, decide_eq_true_eq] at ha hb
    simp [ha.2, hb.2]
  have hsub :
      List.Sublist (l.filter (fun c => decide (|c.contribution| = q)))
        (l.mergeSort (fun a b => decide (|b.contribution| ≤ |a.contribution|))) :=
    List.sublist_mergeSort trans total hpw (List.filter_sublist l)
  have hsub2 := hsub.filter (fun c => decide (|c.contribution| = q))
  have hidem :
      (l.filter (fun c => decide (|c.contribution| = q))).filter
          (fun c => decide (|c.contribution| = q)) =
        l.filter (fun c => decide (|c.contribution| = q)) := by
    rw [List.filter_eq_self]
    intro a ha
    exact (List.mem_filter.mp ha).2
  rw [hidem] at hsub2
  have hlen :
      ((l.mergeSort (fun a b => decide (|b.contribution| ≤ |a.contribution|))).filter
          (fun c => decide (|c.contribution| = q))).length =
        (l.filter (fun c => decide (|c.contribution| = q))).length :=
    ((List.mergeSort_perm l _).filter _).length_eq
  exact (hsub2.eq_of_length hlen.symm).symm

/-- C3: `ScoreExplanation::new` returns the contributions stably sorted by
descending absolute value and truncated to `top_n`: the length is
`min top_n (input length)`, absolute values are non-increasing along the
output, and for each absolute value the output's entries are an initial
segment of the input's entries with that absolute value, in the input's
relative order (tie-stability). -/
theorem score_explanation_new_spec
    (contributions : List DimensionContribution) (top_n : ℕ) :
    (ScoreExplanation.new contributions top_n).top_dimensions.length =
      min top_n contributions.length ∧
    (ScoreExplanation.new contributions top_n).top_dimensions.Pairwise
      (fun a b => |b.contribution| ≤ |a.contribution|) ∧
    ∀ q : ScoreType,
      (ScoreExplanation.new contributions top_n).top_dimensions.filter
          (fun c => decide (|c.contribution| = q)) <+:
        contributions.filter (fun c => decide (|c.contribution| = q)) := by
  refine ⟨?_, ?_, ?_⟩
  · simp [ScoreExplanation.new]
  · have trans : ∀ a b c : DimensionContribution,
        decide (|b.contribution| ≤ |a.contribution|) →
        decide (|c.contribution| ≤ |b.contribution|) →
        decide (|c.contribution| ≤ |a.contribution|) := by
      intro a b c hab hbc
      simp only [decide_eq_true_eq] at *
      exact le_trans hbc hab
    have total : ∀ a b : DimensionContribution,
        decide (|b.contribution| ≤ |a.contribution|) ||
        decide (|a.contribution| ≤ |b.contribution|) := by
      intro a b
      rcases le_total (|b.contribution|) (|a.contribution|) with h | h <;> simp [h]
    have hs := List.sorted_mergeSort trans total contributions
    have ht := List.Pairwise.sublist (List.take_sublist top_n _) hs
    exact ht.imp (by intro a b h; simpa using h)
  · intro q
    have hpre := (List.take_prefix top_n
      (contributions.mergeSort
        (fun a b => decide (|b.contribution| ≤ |a.contribution|)))).filter
      (fun c => decide (|c.contribution| = q))
    rw [mergeSort_filter_tie] at hpre
    exact hpre

/-- Helper: characterisation of `do_core_search_points` on the explanation
path — with `with_explanation = true`, a dense nearest query and a
successful backing batch, the result is the first backing result list with
explanations attached (metric defaulted to Cosine), vectors stripped back
out exactly when the original request had `with_vector` absent or `false`. -/
theorem do_core_search_points_explanation_eq
    (core_search_batch :
      CoreSearchRequestBatch → Except StorageError (List (List ScoredPoint)))
    (request : CoreSearchRequest) (qv : DenseVector)
    (points : List ScoredPoint) (rest : List (List ScoredPoint))
    (h1 : request.with_explanation = true)
    (h2 : request.query = QueryEnum.Nearest ⟨VectorInternal.Dense qv⟩)
    (h3 : core_search_batch
        { searches := [{ request with with_vector := some (WithVector.Bool true) }] } =
      Except.ok (points :: rest)) :
    do_core_search_points core_search_batch request = Except.ok
      (if request.with_vector = none ∨
          request.with_vector = some (WithVector.Bool false) then
        (points.map (attachExplanation qv Distance.Cosine)).map
          (fun p => { p with vector := none })
      else points.map (attachExplanation qv Distance.Cosine)) := by
  rw [do_core_search_points]
  simp only [h1, h2] at h3
  simp only [h1, if_true, do_core_search_batch_points, h2, extract_query_vector,
    h3, List.head?_cons, get_collection_distance, Option.getD]

/-- Helper: `Forall₂` between a mapped list and the original list follows
from the pointwise property. -/
theorem forall₂_map_self {α β : Type} (R : β → α → Prop) (g : α → β) (l : List α)
    (h : ∀ a ∈ l, R (g a) a) : List.Forall₂ R (l.map g) l := by
  induction l with
  | nil => simp
  | cons a t ih =>
    simp only [List.map_cons]
    exact List.Forall₂.cons (h a (by simp)) (ih (fun x hx => h x (by simp [hx])))

/-- C2: a single core-search call with `with_explanation = true` and a dense
nearest-neighbor query attaches exactly one explanation to each returned
point from which a dense vector is retrievable and none to points without
one (given the backing store returns points without explanations); and when
the original request did not ask for vectors (`with_vector` absent or
`Bool(false)`), every returned point carries no vector payload. -/
theorem core_search_explanation_augmentation
    (core_search_batch :
      CoreSearchRequestBatch → Except StorageError (List (List ScoredPoint)))
    (request : CoreSearchRequest) (qv : DenseVector)
    (points : List ScoredPoint) (rest : List (List ScoredPoint))
    (h1 : request.with_explanation = true)
    (h2 : request.query = QueryEnum.Nearest ⟨VectorInternal.Dense qv⟩)
    (h3 : core_search_batch
        { searches := [{ request with with_vector := some (WithVector.Bool true) }] } =
      Except.ok (points :: rest))
    (h4 : ∀ p ∈ points, p.score_explanation = none) :
    ∃ res, do_core_search_points core_search_batch request = Except.ok res ∧
      List.Forall₂ (fun r p =>
        r.score_explanation.isSome =
          (p.vector.bind extract_dense_vector_from_struct).isSome ∧
        ((request.with_vector = none ∨
            request.with_vector = some (WithVector.Bool false)) →
          r.vector = none)) res points := by
  refine ⟨_, do_core_search_points_explanation_eq _ _ _ _ _ h1 h2 h3, ?_⟩
  by_cases hv : request.with_vector = none ∨
      request.with_vector = some (WithVector.Bool false)
  · rw [if_pos hv, List.map_map]
    apply forall₂_map_self
    intro p hp
    refine ⟨?_, fun _ => rfl⟩
    cases hpv : p.vector with
    | none => simp [attachExplanation, hpv, h4 p hp]
    | some vs =>
      cases hev : extract_dense_vector_from_struct vs with
      | none => simp [attachExplanation, hpv, hev, h4 p hp]
      | some rv => simp [attachExplanation, hpv, hev]
  · rw [if_neg hv]
    apply forall₂_map_self
    intro p hp
    refine ⟨?_, fun hc => absurd hc hv⟩
    cases hpv : p.vector with
    | none => simp [attachExplanation, hpv, h4 p hp]
    | some vs =>
      cases hev : extract_dense_vector_from_struct vs with
      | none => simp [attachExplanation, hpv, hev, h4 p hp]
      | some rv => simp [attachExplanation, hpv, hev]

/-- Witness for C2: a request not asking for vectors, one point with a
single dense vector and one without a vector. -/
theorem core_search_explanation_augmentation_witness :
    ∃ res : List ScoredPoint, do_core_search_points
        (fun _ => Except.ok
          [[⟨1, 0, 9, some (VectorStructInternal.Single [3, 4]), none⟩,
            ⟨2, 0, 8, none, none⟩]])
        ⟨QueryEnum.Nearest ⟨VectorInternal.Dense [1, 2]⟩, none, true, 5⟩ =
      Except.ok res ∧
      List.Forall₂ (fun (r : ScoredPoint) (p : ScoredPoint) =>
        r.score_explanation.isSome =
          (p.vector.bind extract_dense_vector_from_struct).isSome ∧
        (((⟨QueryEnum.Nearest ⟨VectorInternal.Dense [1, 2]⟩, none, true,
              5⟩ : CoreSearchRequest).with_vector = none ∨
            (⟨QueryEnum.Nearest ⟨VectorInternal.Dense [1, 2]⟩, none, true,
              5⟩ : CoreSearchRequest).with_vector =
              some (WithVector.Bool false)) →
          r.vector = none)) res
        [⟨1, 0, 9, some (VectorStructInternal.Single [3, 4]), none⟩,
          ⟨2, 0, 8, none, none⟩] :=
  core_search_explanation_augmentation _ _ [1, 2]
    [⟨1, 0, 9, some (VectorStructInternal.Single [3, 4]), none⟩,
      ⟨2, 0, 8, none, none⟩] []
    rfl rfl rfl (by decide)

/-- C6: `get_collection_distance` returns `none` for all inputs, so the
orchestrator substitutes the default metric: on the explanation path every
attached explanation is computed with `Distance.Cosine`, and metric
resolution never makes the search fail (the call still returns `ok`). -/
theorem metric_resolution_defaults_to_cosine {Toc Name Acc Sel : Type}
    (toc : Toc) (collection_name : Name) (access : Acc) (shard_selection : Sel)
    (core_search_batch :
      CoreSearchRequestBatch → Except StorageError (List (List ScoredPoint)))
    (request : CoreSearchRequest) (qv : DenseVector)
    (points : List ScoredPoint) (rest : List (List ScoredPoint))
    (h1 : request.with_explanation = true)
    (h2 : request.query = QueryEnum.Nearest ⟨VectorInternal.Dense qv⟩)
    (h3 : core_search_batch
        { searches := [{ request with with_vector := some (WithVector.Bool true) }] } =
      Except.ok (points :: rest)) :
    get_collection_distance toc collection_name access shard_selection = none ∧
    ∃ res, do_core_search_points core_search_batch request = Except.ok res ∧
      List.Forall₂ (fun r p =>
        ∀ vs rv, p.vector = some vs →
          extract_dense_vector_from_struct vs = some rv →
          r.score_explanation =
            some (compute_explanation_for_distance qv rv Distance.Cosine 10))
        res points := by
  refine ⟨rfl, _, do_core_search_points_explanation_eq _ _ _ _ _ h1 h2 h3, ?_⟩
  by_cases hv : request.with_vector = none ∨
      request.with_vector = some (WithVector.Bool false)
  · rw [if_pos hv, List.map_map]
    apply forall₂_map_self
    intro p _
    intro vs rv hvs hev
    simp [attachExplanation, hvs, hev]
  · rw [if_neg hv]
    apply forall₂_map_self
    intro p _
    intro vs rv hvs hev
    simp [attachExplanation, hvs, hev]

/-- Witness for C6 at a concrete collection lookup and a concrete
explanation-path search. -/
theorem metric_resolution_defaults_to_cosine_witness :
    get_collection_distance () "collection" () () = none ∧
    ∃ res : List ScoredPoint, do_core_search_points
        (fun _ => Except.ok
          [[⟨1, 0, 9, some (VectorStructInternal.Single [3, 4]), none⟩]])
        ⟨QueryEnum.Nearest ⟨VectorInternal.Dense [1, 2]⟩, none, true, 5⟩ =
      Except.ok res ∧
      List.Forall₂ (fun (r : ScoredPoint) (p : ScoredPoint) =>
        ∀ vs rv, p.vector = some vs →
          extract_dense_vector_from_struct vs = some rv →
          r.score_explanation =
            some (compute_explanation_for_distance [1, 2] rv Distance.Cosine 10))
        res [⟨1, 0, 9, some (VectorStructInternal.Single [3, 4]), none⟩] :=
  metric_resolution_defaults_to_cosine () "collection" () () _ _ [1, 2]
    [⟨1, 0, 9, some (VectorStructInternal.Single [3, 4]), none⟩] [] rfl rfl rfl

/-- Helper: membership in the first-seen key list is membership in the key
list. -/
theorem mem_firstSeenKeys {Key : Type} [DecidableEq Key] (x : Key) (l : List Key) :
    x ∈ firstSeenKeys l ↔ x ∈ l := by
  induction l with
  | nil => simp [firstSeenKeys]
  | cons k ks ih =>
    simp only [firstSeenKeys, List.mem_cons, List.mem_filter, decide_eq_true_eq]
    by_cases hxk : x = k
    · simp [hxk]
    · simp [hxk, ih]

/-- Helper: removing a key that does not occur leaves a key list unchanged. -/
theorem filter_ne_of_not_mem {Key : Type} [DecidableEq Key] (k0 : Key)
    (l : List Key) (h : k0 ∉ l) :
    l.filter (fun k2 => decide (¬ k2 = k0)) = l := by
  rw [List.filter_eq_self]
  intro x hx
  simp only [decide_eq_true_eq]
  intro hxx
  exact h (hxx ▸ hx)

/-- Helper: the first-seen keys of a constant block followed by keys not
containing the block's key. -/
theorem firstSeenKeys_block {Key : Type} [DecidableEq Key] (k0 : Key)
    (l2 : List Key) (hk0 : k0 ∉ l2) :
    ∀ l1 : List Key, (∀ x ∈ l1, x = k0) →
      firstSeenKeys (l1 ++ l2) =
        if l1.isEmpty then firstSeenKeys l2 else k0 :: firstSeenKeys l2 := by
  intro l1
  induction l1 with
  | nil => simp
  | cons a l1' ih =>
    intro hall
    have ha : a = k0 := hall a (by simp)
    have hfilter :
        (firstSeenKeys l2).filter (fun k2 => decide (¬ k2 = k0)) =
          firstSeenKeys l2 := by
      apply filter_ne_of_not_mem
      intro hmem
      exact hk0 ((mem_firstSeenKeys k0 l2).mp hmem)
    simp only [List.cons_append, firstSeenKeys, List.append_eq]
    rw [ih (fun x hx => hall x (by simp [hx])), ha]
    by_cases he : l1'.isEmpty
    · rw [if_pos he]
      simp [hfilter]
      intro x hx hxk
      exact hk0 (hxk ▸ (mem_firstSeenKeys x l2).mp hx)
    · rw [if_neg he]
      simp [List.filter_cons, hfilter]
      intro x hx hxk
      exact hk0 (hxk ▸ (mem_firstSeenKeys x l2).mp hx)

/-- Helper: every key occurring in an ungrouped request list is one of the
group keys. -/
theorem mem_ungroup_snd {Req Key : Type} (gs : List (Key × List Req)) (x : Key)
    (hx : x ∈ (ungroup gs).map Prod.snd) : x ∈ gs.map Prod.fst := by
  simp only [ungroup, List.map_flatten, List.map_map] at hx
  rw [List.mem_flatten] at hx
  obtain ⟨l, hl, hxl⟩ := hx
  rw [List.mem_map] at hl
  obtain ⟨g, hg, rfl⟩ := hl
  simp only [Function.comp, List.map_map, List.mem_map, Function.comp_apply] at hxl
  obtain ⟨r, _, hr⟩ := hxl
  rw [List.mem_map]
  exact ⟨g, hg, hr⟩

/-- Counterexample for C1: with requests `10, 30` on selector `0` and `20`
on selector `1` — equal selectors at non-adjacent positions 0 and 2 — and an
identity backing call (each request's result list is the request itself),
`do_search_batch_points` returns the per-partition outputs concatenated in
first-seen-partition order (`[10, 30, 20]`), which differs from applying
the operation to each request individually in original input order
(`[10, 20, 30]`). -/
theorem search_batch_not_order_preserving :
    do_search_batch_points (fun (_ : ℕ) (core_requests : List ℕ) => core_requests)
        [(10, 0), (20, 1), (30, 0)] ≠
      do_search_batch_points (fun (_ : ℕ) (core_requests : List ℕ) => core_requests)
          [(10, 0)] ++
        do_search_batch_points (fun (_ : ℕ) (core_requests : List ℕ) => core_requests)
          [(20, 1)] ++
        do_search_batch_points (fun (_ : ℕ) (core_requests : List ℕ) => core_requests)
          [(30, 0)] := by
  decide

/-- C1 amended: when equal shard selectors appear only in adjacent positions
(the input is a concatenation of runs with pairwise-distinct selectors) and
the backing call is index-aligned per partition, `do_search_batch_points`
returns one result per request, index-aligned to the caller's original
input order; with non-adjacent equal selectors the per-partition outputs
are merely concatenated in first-seen-partition order (see the
counterexample). -/
theorem search_batch_aligned_when_grouped {Req Key Res : Type} [DecidableEq Key]
    (f : Key → Req → Res) (groups : List (Key × List Req))
    (hnd : (groups.map Prod.fst).Nodup) :
    do_search_batch_points (fun k core_requests => core_requests.map (f k))
        (ungroup groups) =
      (ungroup groups).map (fun p => f p.2 p.1) := by
  induction groups with
  | nil => rfl
  | cons g0 gs ih =>
    obtain ⟨k0, rs⟩ := g0
    rw [List.map_cons, List.nodup_cons] at hnd
    obtain ⟨hk0, hnd2⟩ := hnd
    have hrest := ih hnd2
    have hun : ungroup ((k0, rs) :: gs) =
        (rs.map (fun r => (r, k0))) ++ ungroup gs := by
      simp [ungroup]
    cases rs with
    | nil =>
      rw [hun, List.map_nil, List.nil_append]
      exact hrest
    | cons r0 rs2 =>
      have hnotin : k0 ∉ (ungroup gs).map Prod.snd :=
        fun h => hk0 (mem_ungroup_snd gs k0 h)
      have hkeys :
          (((r0 :: rs2).map (fun r => (r, k0))) ++ ungroup gs).map Prod.snd =
            ((r0 :: rs2).map (fun _ => k0)) ++ (ungroup gs).map Prod.snd := by
        rw [List.map_append, List.map_map]
        rfl
      have hfsk :
          firstSeenKeys
              ((((r0 :: rs2).map (fun r => (r, k0))) ++ ungroup gs).map Prod.snd) =
            k0 :: firstSeenKeys ((ungroup gs).map Prod.snd) := by
        rw [hkeys]
        have := firstSeenKeys_block k0 ((ungroup gs).map Prod.snd) hnotin
          ((r0 :: rs2).map (fun _ => k0))
          (by intro x hx; rw [List.mem_map] at hx; obtain ⟨r, _, hr⟩ := hx; exact hr.symm)
        simpa using this
      have hfilter0 :
          ((((r0 :: rs2).map (fun r => (r, k0))) ++ ungroup gs).filter
              (fun p => decide (p.2 = k0))) =
            (r0 :: rs2).map (fun r => (r, k0)) := by
        rw [List.filter_append]
        have h1 : ((r0 :: rs2).map (fun r => (r, k0))).filter
            (fun p => decide (p.2 = k0)) = (r0 :: rs2).map (fun r => (r, k0)) := by
          rw [List.filter_eq_self]
          intro a ha
          rw [List.mem_map] at ha
          obtain ⟨r, _, hr⟩ := ha
          simp [← hr]
        have h2 : (ungroup gs).filter (fun p => decide (p.2 = k0)) = [] := by
          rw [List.filter_eq_nil_iff]
          intro a ha
          simp only [decide_eq_true_eq]
          intro h2a
          exact hnotin (h2a ▸ List.mem_map_of_mem Prod.snd ha)
        rw [h1, h2, List.append_nil]
      have htail : ∀ k ∈ firstSeenKeys ((ungroup gs).map Prod.snd),
          ((((r0 :: rs2).map (fun r => (r, k0))) ++ ungroup gs).filter
              (fun p => decide (p.2 = k))) =
            (ungroup gs).filter (fun p => decide (p.2 = k)) := by
        intro k hkmem
        have hkne : ¬ (k0 = k) := by
          intro he
          exact hnotin (he ▸ (mem_firstSeenKeys k _).mp hkmem)
        rw [List.filter_append]
        have h1 : ((r0 :: rs2).map (fun r => (r, k0))).filter
            (fun p => decide (p.2 = k)) = [] := by
          rw [List.filter_eq_nil_iff]
          intro a ha
          rw [List.mem_map] at ha
          obtain ⟨r, _, hr⟩ := ha
          simp only [decide_eq_true_eq, ← hr]
          exact hkne
        rw [h1, List.nil_append]
      rw [hun]
      rw [do_search_batch_points, batch_requests, hfsk, List.filterMap_cons]
      rw [hfilter0]
      have hbucket0 : ((r0 :: rs2).map (fun r => (r, k0))).map Prod.fst = r0 :: rs2 := by
        rw [List.map_map]
        exact List.map_id _
      rw [hbucket0]
      have hne : (r0 :: rs2).isEmpty = false := rfl
      rw [hne]
      have hcongr :
          (firstSeenKeys ((ungroup gs).map Prod.snd)).filterMap
              (fun shard_selector =>
                if (((((r0 :: rs2).map (fun r => (r, k0))) ++ ungroup gs).filter
                      (fun p => decide (p.2 = shard_selector))).map Prod.fst).isEmpty then
                  none
                else
                  some (((((((r0 :: rs2).map (fun r => (r, k0))) ++ ungroup gs).filter
                      (fun p => decide (p.2 = shard_selector))).map Prod.fst)).map
                    (f shard_selector))) =
            (firstSeenKeys ((ungroup gs).map Prod.snd)).filterMap
              (fun shard_selector =>
                if (((ungroup gs).filter
                      (fun p => decide (p.2 = shard_selector))).map Prod.fst).isEmpty then
                  none
                else
                  some ((((ungroup gs).filter
                      (fun p => decide (p.2 = shard_selector))).map Prod.fst).map
                    (f shard_selector))) := by
        apply List.filterMap_congr
        intro k hk
        rw [htail k hk]
      simp only [Bool.false_eq_true, if_false]
      rw [hcongr]
      have hrest2 :
          ((firstSeenKeys ((ungroup gs).map Prod.snd)).filterMap
              (fun shard_selector =>
                if (((ungroup gs).filter
                      (fun p => decide (p.2 = shard_selector))).map Prod.fst).isEmpty then
                  none
                else
                  some ((((ungroup gs).filter
                      (fun p => decide (p.2 = shard_selector))).map Prod.fst).map
                    (f shard_selector)))).flatten =
            (ungroup gs).map (fun p => f p.2 p.1) := hrest
      rw [List.flatten_cons, hrest2, List.map_append, List.map_map]
      rfl

/-- Witness for the amended C1 at two adjacent runs with distinct selectors
and a backing call adding the selector to each request. -/
theorem search_batch_aligned_when_grouped_witness :
    (([((0 : ℕ), [(10 : ℕ), 30]), (1, [20])].map Prod.fst).Nodup) ∧
    do_search_batch_points
        (fun k core_requests => core_requests.map (fun r => r + k))
        (ungroup [((0 : ℕ), [(10 : ℕ), 30]), (1, [20])]) =
      (ungroup [((0 : ℕ), [(10 : ℕ), 30]), (1, [20])]).map
        (fun p => p.1 + p.2) :=
  ⟨by decide,
    search_batch_aligned_when_grouped (fun k r => r + k)
      [((0 : ℕ), [(10 : ℕ), 30]), (1, [20])] (by decide)⟩
